import Mathlib

/-!
Verification of the commissaire-service RPC microservice framework.

This file shallowly embeds the core logic of the repository:
  - `CommissaireService._wrap_on_message` (JSON-RPC dispatch, error mapping,
    acknowledgement and reply publication),
  - `CommissaireService.request` (outbound call with reply queue and timeout),
  - `ServiceManager.run` (the supervisor's poll-and-replace pass),
  - `StorageService.register_store_handler`, `StorageService._build_model`
    and `StorageService.on_list_store_handlers` (handler registration,
    model deserialization and the routing-table view).

Python values are modelled by the inductive `RVal`; uncaught Python
exceptions by `PyErr`; exceptions caught by the dispatch try/except by
`Exc` (carrying the dynamic type name and the message text).  Stateful
code is modelled by explicit state passing; side effects of dispatch are
recorded as an ordered event trace.
-/

/-- Model of a Python value as carried in message bodies and configs. -/
inductive RVal where
  | str (s : String)
  | num (n : Int)
  | bool (b : Bool)
  | none
  | list (items : List RVal)
  | dict (fields : List (String × RVal))
deriving Repr

/-- Exception value as seen by the dispatch `except` clause: the dynamic
type name (`type(error)` compared with `is`) and the message (`str(error)`). -/
structure Exc where
  ty : String
  msg : String
deriving Repr

/-- An exception that escapes the code under consideration uncaught. -/
inductive PyErr where
  | keyError (key : String)
  | indexError (msg : String)
  | typeError (msg : String)
  | jsonDecodeError (msg : String)
  | timeoutEmpty
deriving Repr

/-- First-match lookup in a Python dict modelled as an association list
(dict keys are unique, so first match is the match). -/
def lookupField : List (String × RVal) → String → Option RVal
  | [], _ => Option.none
  | (k, v) :: rest, key => if k = key then Option.some v else lookupField rest key

/-- Removal of a key from a dict modelled as an association list
(Python `dict.pop`). -/
def eraseKey (key : String) : List (String × RVal) → List (String × RVal)
  | [] => []
  | (k, v) :: rest => if k = key then rest else (k, v) :: eraseKey key rest

/-- The ASCII single-quote character, written out so that generated Python
message texts can be built without quote literals. -/
def pyQuote : String := String.singleton (Char.ofNat 39)

/-- Python `str(type(e))`, the value the dispatch code stores under
`error.data.exception`: the form is `<class 'Name'>`, not the bare name. -/
def pyStrOfType (ty : String) : String :=
  "<class " ++ pyQuote ++ ty ++ pyQuote ++ ">"

/-- Message of the `AttributeError` raised by `getattr(self, 'on_<m>')`
when the service has no such handler. -/
def noAttrMsg (cls attr : String) : String :=
  pyQuote ++ cls ++ pyQuote ++ " object has no attribute " ++ pyQuote ++ attr ++ pyQuote

/-- Python `str(KeyError(k))` is the repr of the key. -/
def keyErrExcMsg (k : String) : String := pyQuote ++ k ++ pyQuote

/-- Python type name of a value, for TypeError texts. -/
def pyTypeName : RVal → String
  | RVal.str _ => "str"
  | RVal.num _ => "int"
  | RVal.bool _ => "bool"
  | RVal.none => "NoneType"
  | RVal.list _ => "list"
  | RVal.dict _ => "dict"

/-- Message of the TypeError raised by `f(*x)` when `x` is not iterable. -/
def starUnpackMsg (tyname : String) : String :=
  "argument after * must be an iterable, not " ++ tyname

/-- Arguments handed to a resolved `on_<method>` handler: keyword arguments
when `params` is a dict, positional otherwise. -/
inductive CallArgs where
  | named (kw : List (String × RVal))
  | positional (args : List RVal)

/-- A handler body: may return a result value or raise. -/
def Handler := CallArgs → Except Exc RVal

/-- Inbound message metadata used by `_wrap_on_message`: the routing key
and the optional `reply_to` property. -/
structure Msg where
  routing_key : String
  reply_to : Option String

/-- Observable side effects of one dispatch, in program order. -/
inductive Event where
  | invoke (handlerName : String)
  | acked
  | put (queue : String) (payload : RVal)
  | genericLog

/-- Outcome of `_wrap_on_message` on one message: the events it performed,
and either the computed result value or the uncaught exception that
escaped into the consuming loop. -/
structure Dispatch where
  events : List Event
  outcome : Except PyErr RVal

/-- Python `s.rsplit('.', 1)` restricted to its use here: split the string
at the last dot, `Option.none` when there is no dot (in which case the
code's `[1]` raises IndexError). -/
def splitLastDotAux : List Char → Option (List Char × List Char)
  | [] => Option.none
  | c :: cs =>
    match splitLastDotAux cs with
    | Option.some (a, b) => Option.some (c :: a, b)
    | Option.none => if c = '.' then Option.some ([], cs) else Option.none

/-- Split a routing key at its last dot; the second component is the
expected method name. -/
def rsplitLastDot (s : String) : Option (String × String) :=
  match splitLastDotAux s.data with
  | Option.some (a, b) => Option.some (⟨a⟩, ⟨b⟩)
  | Option.none => Option.none

/-- The JSON-RPC error envelope built by the dispatch `except` clause:
code -32601 when the caught exception's exact type is AttributeError,
-32600 otherwise; `message` is the exception text and `data.exception`
is `str(type(error))`. -/
def errorEnvelope (idv : RVal) (e : Exc) : RVal :=
  RVal.dict
    [("jsonrpc", RVal.str "2.0"),
     ("id", idv),
     ("error", RVal.dict
       [("code", RVal.num (if e.ty = "AttributeError" then -32601 else -32600)),
        ("message", RVal.str e.msg),
        ("data", RVal.dict [("exception", RVal.str (pyStrOfType e.ty))])])]

/-- Invocation of a resolved handler on `body['params']`: keyword call for
a dict, positional for a list, character-wise unpack for a string, and a
TypeError (raised before the handler runs) for non-iterables. -/
def callWithArgs (name : String) (h : Handler) (p : RVal) :
    List Event × Except Exc RVal :=
  match p with
  | RVal.dict kw => ([Event.invoke name], h (CallArgs.named kw))
  | RVal.list args => ([Event.invoke name], h (CallArgs.positional args))
  | RVal.str s =>
    ([Event.invoke name],
     h (CallArgs.positional (s.data.map (fun c => RVal.str (String.singleton c)))))
  | v => ([], Except.error ⟨"TypeError", starUnpackMsg (pyTypeName v)⟩)

/-- The default `on_message` (non-jsonrpc path): log the drop and ack. -/
def genericDispatch : Dispatch :=
  ⟨[Event.genericLog, Event.acked], Except.ok RVal.none⟩

/-- The `try` block of the jsonrpc branch: resolve `on_<method>`
(AttributeError when absent, with no handler invocation), read
`body['params']` (KeyError when absent), and call the handler. -/
def rpcTried (cls : String) (hs : String → Option Handler)
    (fields : List (String × RVal)) (expected : String) :
    List Event × Except Exc RVal :=
  match hs ("on_" ++ expected) with
  | Option.none =>
    ([], Except.error ⟨"AttributeError", noAttrMsg cls ("on_" ++ expected)⟩)
  | Option.some h =>
    match lookupField fields "params" with
    | Option.none => ([], Except.error ⟨"KeyError", keyErrExcMsg "params"⟩)
    | Option.some p => callWithArgs ("on_" ++ expected) h p

/-- The tail of the jsonrpc branch once a result value exists and
`body['id']` is known present: ack the message, then publish
`{'result': result}` when `reply_to` is declared and truthy. -/
def rpcFinish (tev : List Event) (result : RVal) (m : Msg) : Dispatch :=
  let ev2 := tev ++ [Event.acked]
  match m.reply_to with
  | Option.some rt =>
    if rt = "" then ⟨ev2, Except.ok result⟩
    else ⟨ev2 ++ [Event.put rt (RVal.dict [("result", result)])], Except.ok result⟩
  | Option.none => ⟨ev2, Except.ok result⟩

/-- The jsonrpc branch of `_wrap_on_message`: run the `try` block, map a
caught exception to an error envelope (reading `body['id']` inside the
`except` clause, where a missing key escapes uncaught), read `body['id']`
for the result log line (likewise escaping when missing), then ack and
reply. -/
def rpcDispatch (cls : String) (hs : String → Option Handler)
    (fields : List (String × RVal)) (expected : String) (m : Msg) : Dispatch :=
  let tried := rpcTried cls hs fields expected
  match tried.2 with
  | Except.ok r =>
    match lookupField fields "id" with
    | Option.none => ⟨tried.1, Except.error (PyErr.keyError "id")⟩
    | Option.some _ => rpcFinish tried.1 r m
  | Except.error e =>
    match lookupField fields "id" with
    | Option.none => ⟨tried.1, Except.error (PyErr.keyError "id")⟩
    | Option.some idv => rpcFinish tried.1 (errorEnvelope idv e) m

/-- `CommissaireService._wrap_on_message`: compute the expected method from
the routing key (IndexError when there is no dot), enter the jsonrpc
branch when the body is a dict whose `method` value equals it, otherwise
fall through to `on_message`. -/
def wrap_on_message (cls : String) (hs : String → Option Handler)
    (body : RVal) (m : Msg) : Dispatch :=
  match rsplitLastDot m.routing_key with
  | Option.none => ⟨[], Except.error (PyErr.indexError "list index out of range")⟩
  | Option.some (_, expected) =>
    match body with
    | RVal.dict fields =>
      match lookupField fields "method" with
      | Option.some (RVal.str mth) =>
        if mth = expected then rpcDispatch cls hs fields expected m
        else genericDispatch
      | _ => genericDispatch
    | _ => genericDispatch

/-- Recognizer for acknowledgement events. -/
def isAck : Event → Bool
  | Event.acked => true
  | _ => false

/-- Recognizer for handler-invocation events. -/
def isInvoke : Event → Bool
  | Event.invoke _ => true
  | _ => false

/-- Number of times the message was acknowledged during dispatch. -/
def ackCount (d : Dispatch) : Nat := (d.events.filter isAck).length

/-- Number of handler invocations during dispatch. -/
def invokeCount (d : Dispatch) : Nat := (d.events.filter isInvoke).length

/-- Messages published to reply queues during dispatch, in order. -/
def putEvents (d : Dispatch) : List (String × RVal) :=
  d.events.filterMap (fun e =>
    match e with
    | Event.put q v => Option.some (q, v)
    | _ => Option.none)

/-- True when dispatch let an exception escape into the consuming loop. -/
def raised (d : Dispatch) : Bool :=
  match d.outcome with
  | Except.error _ => true
  | Except.ok _ => false

/-- The result value computed by a non-raising dispatch. -/
def resultOf (d : Dispatch) : Option RVal :=
  match d.outcome with
  | Except.ok r => Option.some r
  | Except.error _ => Option.none

/-- Field access on an envelope value. -/
def envField (v : RVal) (k : String) : Option RVal :=
  match v with
  | RVal.dict fs => lookupField fs k
  | _ => Option.none

/-- Field access inside an envelope's `error` object. -/
def envErrField (v : RVal) (k : String) : Option RVal :=
  (envField v "error").bind (fun e => envField e k)

/-- The numeric error code of an envelope, when present. -/
def envErrCode (v : RVal) : Option Int :=
  match envErrField v "code" with
  | Option.some (RVal.num c) => Option.some c
  | _ => Option.none

/-- The error message of an envelope, when present. -/
def envErrMsg (v : RVal) : Option String :=
  match envErrField v "message" with
  | Option.some (RVal.str s) => Option.some s
  | _ => Option.none

/-- The `error.data.exception` entry of an envelope, when present. -/
def envErrExcData (v : RVal) : Option String :=
  match (envErrField v "data").bind (fun d2 => envField d2 "exception") with
  | Option.some (RVal.str s) => Option.some s
  | _ => Option.none

/-- Error code carried by the result of a dispatch. -/
def dispErrCode (d : Dispatch) : Option Int := (resultOf d).bind envErrCode

/-- Error message carried by the result of a dispatch. -/
def dispErrMsg (d : Dispatch) : Option String := (resultOf d).bind envErrMsg

/-- Exception-type datum carried by the result of a dispatch. -/
def dispErrExcData (d : Dispatch) : Option String := (resultOf d).bind envErrExcData

/-- Bus operations performed by `CommissaireService.request`, in order. -/
inductive BusEvent where
  | declareQ (name : String) (durable : Bool) (auto_delete : Bool)
  | publish (routing_key : String) (msg : RVal) (reply_to : String)
  | getWait (timeout : Nat)
  | ackReply
  | closeQ (name : String)

/-- Outcome of one outbound `request` call: its bus event trace and either
the reply payload or the uncaught timeout exception. -/
structure ReqTrace where
  events : List BusEvent
  outcome : Except PyErr RVal

/-- `CommissaireService.request`: declare the reply queue `response-<id>`
(non-durable, auto-deleting), publish the jsonrpc request with that queue
as `reply_to`, then block on one `get` with timeout 3.  `reply` models
whether the bus delivers a reply within the bound: on `Option.none` the
queue primitive's Empty exception escapes to the caller (before the
`close()` line is reached); on a reply the message is acked, the queue is
closed and its payload returned. -/
def request (id routing_key mth : String) (params : RVal)
    (reply : Option RVal) : ReqTrace :=
  let qname := "response-" ++ id
  let msg := RVal.dict
    [("jsonrpc", RVal.str "2.0"), ("id", RVal.str id),
     ("method", RVal.str mth), ("params", params)]
  let ev := [BusEvent.declareQ qname false true,
             BusEvent.publish routing_key msg qname,
             BusEvent.getWait 3]
  match reply with
  | Option.none => ⟨ev, Except.error PyErr.timeoutEmpty⟩
  | Option.some payload =>
    ⟨ev ++ [BusEvent.ackReply, BusEvent.closeQ qname], Except.ok payload⟩

/-- Queues declared and not yet closed after a sequence of bus events,
with their (durable, auto_delete) flags. -/
def liveQueues (evs : List BusEvent) : List (String × Bool × Bool) :=
  evs.foldl (fun acc e =>
    match e with
    | BusEvent.declareQ n d a => acc ++ [(n, d, a)]
    | BusEvent.closeQ n => acc.filter (fun q => q.1 != n)
    | _ => acc) []

/-- Modelled from the spec: the message bus is an external collaborator
(spec sections 2 and 6); a queue declared auto-deleting is removed by the
bus once its transient consumer is released, so after the `request`
interaction ends the bus retains only the non-auto-delete queues among
those left unclosed by the code. -/
def queuesAfterRelease (evs : List BusEvent) : List (String × Bool × Bool) :=
  (liveQueues evs).filter (fun q => !q.2.2)

/-- Recognizer for the blocking reply wait. -/
def isGetWait : BusEvent → Bool
  | BusEvent.getWait _ => true
  | _ => false

/-- State of `ServiceManager`: the tracked async results (as distinct task
ids, in list order), the lifetime number of `_start_process` calls, and
the next fresh task id. -/
structure MState where
  asyncs : List Nat
  launched : Nat
  nextId : Nat
deriving Repr

/-- `ServiceManager._start_process`: append one new worker task. -/
def startProcess (s : MState) : MState :=
  { asyncs := s.asyncs ++ [s.nextId],
    launched := s.launched + 1,
    nextId := s.nextId + 1 }

/-- The launch loop at the top of `ServiceManager.run`: start
`process_count` workers. -/
def initManager : Nat → MState
  | 0 => ⟨[], 0, 0⟩
  | n + 1 => startProcess (initManager n)

/-- One pass of the supervisor's poll loop, from iteration index `i`:
Python's `for process_result in self._asyncs` reads the live list by an
internal index, so when a ready task is popped and a replacement appended
the iteration continues at the next index of the mutated list.  A ready
task is removed at `self._asyncs.index(...)` (first equal element) and
one replacement is started. -/
def pollPass (ready : Nat → Bool) (i : Nat) (s : MState) : MState :=
  if h : i < s.asyncs.length then
    if ready (s.asyncs.get ⟨i, h⟩) then
      pollPass ready (i + 1)
        (startProcess
          { s with asyncs := s.asyncs.eraseIdx (s.asyncs.indexOf (s.asyncs.get ⟨i, h⟩)) })
    else
      pollPass ready (i + 1) s
  else s
termination_by s.asyncs.length - i
decreasing_by
  all_goals simp_wf
  · have hm : s.asyncs.get ⟨i, h⟩ ∈ s.asyncs := List.get_mem s.asyncs i h
    have hidx : s.asyncs.indexOf (s.asyncs.get ⟨i, h⟩) < s.asyncs.length :=
      List.indexOf_lt_length.mpr hm
    have hlen : (s.asyncs.eraseIdx (s.asyncs.indexOf (s.asyncs.get ⟨i, h⟩))).length
        = s.asyncs.length - 1 := by
      rw [List.length_eraseIdx s.asyncs _, if_pos hidx]
    simp [startProcess, hlen]
    omega
  · omega

/-- Glob matching of `fnmatch` as the spec's glossary defines it: `*`
matches any (possibly empty) character sequence, `?` matches exactly one
character, anything else matches itself (the configuration patterns of
this service use only these wildcards, and POSIX `normcase` is the
identity). -/
def globMatch : List Char → List Char → Bool
  | [], s => s.isEmpty
  | c :: ps, s =>
    if c = '*' then s.tails.any (fun t => globMatch ps t)
    else
      match s with
      | [] => false
      | d :: rest => (c == '?' || c == d) && globMatch ps rest

/-- `fnmatch.filter(names, pat)`: the names matching the pattern, keeping
their order in `names`. -/
def fnmatchFilter (names : List String) (pat : String) : List String :=
  names.filter (fun n => globMatch pat.data n.data)

/-- Errors raised by `register_store_handler` and its collaborators, in
structured form. -/
inductive ConfigErr where
  | notAnObject
  | missingNameKey
  | noMatchForModel (pattern : String)
  | badPattern
  | pluginError (e : String)
deriving Repr

/-- A completed store-handler registration: the resolved implementation
name, the remaining configuration and the served model types. -/
structure HandlerReg where
  handler_type : String
  config : List (String × RVal)
  model_types : List String
deriving Repr

/-- Python `set` insertion on the model used here: append unless present. -/
def setInsert (acc : List String) (x : String) : List String :=
  if x ∈ acc then acc else acc ++ [x]

/-- Python `set.update`: insert each element of `xs` in turn. -/
def setUpdate (acc : List String) (xs : List String) : List String :=
  xs.foldl setInsert acc

/-- The model type registered under a catalog name
(`self._model_types[name]`, always a hit for names produced by the
filter). -/
def lookupType (catalog : List (String × String)) (n : String) : String :=
  match List.lookup n catalog with
  | Option.some t => t
  | Option.none => ""

/-- The pattern loop of `register_store_handler`: glob-filter the catalog
keys with each pattern in order, fail on the first pattern with no match
(naming it), and union the matched types into the accumulated set. -/
def matchModels (catalog : List (String × String)) :
    List RVal → List String → Except ConfigErr (List String)
  | [], acc => Except.ok acc
  | p :: ps, acc =>
    match p with
    | RVal.str pat =>
      let ms := fnmatchFilter (catalog.map Prod.fst) pat
      if ms.isEmpty then Except.error (ConfigErr.noMatchForModel pat)
      else matchModels catalog ps (setUpdate acc (ms.map (lookupType catalog)))
    | _ => Except.error ConfigErr.badPattern

/-- Python iteration over the popped `models` value: element-wise for a
list, character-wise for a string, key-wise for a dict, a TypeError
otherwise. -/
def iterValue : RVal → Except ConfigErr (List RVal)
  | RVal.list xs => Except.ok xs
  | RVal.str s => Except.ok (s.data.map (fun c => RVal.str (String.singleton c)))
  | RVal.dict fs => Except.ok (fs.map (fun kv => RVal.str kv.1))
  | _ => Except.error ConfigErr.badPattern

/-- `StorageService.register_store_handler`: require a dict, pop `name`
(missing is a configuration error), resolve the plugin, pop `models`
(default `['*']`), run the pattern loop, and hand the implementation, the
remaining config and the matched types to the manager.  The first
component of the result is the final state of the (mutated) `config`
argument; the plugin loader `import_plugin` lives in the external
`commissaire` package and is passed in as a collaborator. -/
def register_store_handler (importPlugin : RVal → Except ConfigErr String)
    (catalog : List (String × String)) (config : RVal) :
    RVal × Except ConfigErr HandlerReg :=
  match config with
  | RVal.dict fields =>
    match lookupField fields "name" with
    | Option.none => (RVal.dict fields, Except.error ConfigErr.missingNameKey)
    | Option.some nameVal =>
      let fields1 := eraseKey "name" fields
      match importPlugin nameVal with
      | Except.error e => (RVal.dict fields1, Except.error e)
      | Except.ok hty =>
        let pm : RVal × List (String × RVal) :=
          match lookupField fields1 "models" with
          | Option.some mv => (mv, eraseKey "models" fields1)
          | Option.none => (RVal.list [RVal.str "*"], fields1)
        match iterValue pm.1 with
        | Except.error e => (RVal.dict pm.2, Except.error e)
        | Except.ok pats =>
          match matchModels catalog pats [] with
          | Except.error e => (RVal.dict pm.2, Except.error e)
          | Except.ok tys => (RVal.dict pm.2, Except.ok ⟨hty, pm.2, tys⟩)
  | other => (other, Except.error ConfigErr.notAnObject)

/-- Message of the TypeError raised when
`json.decoder.JSONDecodeError(msg)` is constructed with only one
argument (its signature is `(msg, doc, pos)`). -/
def jsonCtorArityMsg : String :=
  "__init__() missing 2 required positional arguments: " ++ pyQuote ++ "doc"
    ++ pyQuote ++ " and " ++ pyQuote ++ "pos" ++ pyQuote

/-- `StorageService._build_model`: a string payload is parsed as JSON
(`parse` stands for `json.loads`; its failure propagates as the parser's
JSONDecodeError); a parsed non-object reaches
`raise json.decoder.JSONDecodeError('Model data expected to be a JSON
object')`, but that constructor requires `(msg, doc, pos)`, so building
the exception itself raises a TypeError; then the type name is looked up
(KeyError when unknown) and the model is built by the external model
class (`newModel` stands for `model_type.new`). -/
def build_model (catalog : List (String × String))
    (parse : String → Except String RVal)
    (newModel : String → List (String × RVal) → Except PyErr RVal)
    (model_type_name : String) (model_json_data : RVal) : Except PyErr RVal :=
  let dataE : Except PyErr RVal :=
    match model_json_data with
    | RVal.str s =>
      match parse s with
      | Except.error m => Except.error (PyErr.jsonDecodeError m)
      | Except.ok v =>
        match v with
        | RVal.dict fs => Except.ok (RVal.dict fs)
        | _ => Except.error (PyErr.typeError jsonCtorArityMsg)
    | v => Except.ok v
  match dataE with
  | Except.error e => Except.error e
  | Except.ok data =>
    match List.lookup model_type_name catalog with
    | Option.none => Except.error (PyErr.keyError model_type_name)
    | Option.some ty =>
      match data with
      | RVal.dict fs => newModel ty fs
      | v => Except.error (PyErr.typeError (starUnpackMsg (pyTypeName v)))

/-- One entry of the `on_list_store_handlers` response. -/
structure LSHEntry where
  handler_type : String
  config : List (String × RVal)
  model_types : List String
deriving Repr

/-- The `model_types.sort()` call: Python's ascending lexicographic sort
of the type names. -/
def sortNames (l : List String) : List String :=
  List.insertionSort (fun a b => a ≤ b) l

/-- Modelled from the spec: `StoreHandlerManager` (module
`commissaire_service.storage.storehandlermanager`, not under src/) keeps
registrations in an append-only ordered list (spec section 3,
StoreHandlerRegistration) and `list_store_handlers` returns that sequence
in registration order (spec section 6). -/
def register_with_manager (tbl : List HandlerReg) (r : HandlerReg) :
    List HandlerReg := tbl ++ [r]

/-- `StorageService.on_list_store_handlers`: one entry per registration,
in the manager's order, with the served type names sorted. -/
def on_list_store_handlers (tbl : List HandlerReg) : List LSHEntry :=
  tbl.map (fun r => ⟨r.handler_type, r.config, sortNames r.model_types⟩)

/-! ### Helper lemmas about the dispatch pipeline -/

lemma wrap_eq_rpc (cls : String) (hs : String → Option Handler)
    (fields : List (String × RVal)) (rk pre mth : String) (rt : Option String)
    (h1 : rsplitLastDot rk = Option.some (pre, mth))
    (h2 : lookupField fields "method" = Option.some (RVal.str mth)) :
    wrap_on_message cls hs (RVal.dict fields) ⟨rk, rt⟩ =
      rpcDispatch cls hs fields mth ⟨rk, rt⟩ := by
  unfold wrap_on_message
  simp [h1, h2]

lemma rpcTried_none (cls : String) (hs : String → Option Handler)
    (fields : List (String × RVal)) (mth : String)
    (hno : hs ("on_" ++ mth) = Option.none) :
    rpcTried cls hs fields mth =
      ([], Except.error ⟨"AttributeError", noAttrMsg cls ("on_" ++ mth)⟩) := by
  unfold rpcTried
  rw [hno]

lemma rpcTried_named (cls : String) (hs : String → Option Handler)
    (fields : List (String × RVal)) (mth : String) (h : Handler)
    (kw : List (String × RVal))
    (hh : hs ("on_" ++ mth) = Option.some h)
    (hp : lookupField fields "params" = Option.some (RVal.dict kw)) :
    rpcTried cls hs fields mth =
      ([Event.invoke ("on_" ++ mth)], h (CallArgs.named kw)) := by
  unfold rpcTried
  rw [hh, hp]
  rfl

lemma rpcDispatch_of_error (cls : String) (hs : String → Option Handler)
    (fields : List (String × RVal)) (mth : String) (m : Msg) (idv : RVal)
    (e : Exc) (tev : List Event)
    (h3 : lookupField fields "id" = Option.some idv)
    (ht : rpcTried cls hs fields mth = (tev, Except.error e)) :
    rpcDispatch cls hs fields mth m = rpcFinish tev (errorEnvelope idv e) m := by
  unfold rpcDispatch
  rw [ht, h3]

lemma rpcDispatch_of_ok (cls : String) (hs : String → Option Handler)
    (fields : List (String × RVal)) (mth : String) (m : Msg) (idv r : RVal)
    (tev : List Event)
    (h3 : lookupField fields "id" = Option.some idv)
    (ht : rpcTried cls hs fields mth = (tev, Except.ok r)) :
    rpcDispatch cls hs fields mth m = rpcFinish tev r m := by
  unfold rpcDispatch
  rw [ht, h3]

lemma rpcFinish_outcome (tev : List Event) (r : RVal) (m : Msg) :
    (rpcFinish tev r m).outcome = Except.ok r := by
  rcases m with ⟨rk, rt⟩
  cases rt with
  | none => rfl
  | some q =>
    by_cases hq : q = "" <;> simp [rpcFinish, hq]

lemma resultOf_rpcFinish (tev : List Event) (r : RVal) (m : Msg) :
    resultOf (rpcFinish tev r m) = Option.some r := by
  rw [resultOf, rpcFinish_outcome]

lemma raised_rpcFinish (tev : List Event) (r : RVal) (m : Msg) :
    raised (rpcFinish tev r m) = false := by
  rw [raised, rpcFinish_outcome]

lemma rpcFinish_events (tev : List Event) (r : RVal) (m : Msg) :
    ∃ post, (rpcFinish tev r m).events = tev ++ Event.acked :: post ∧
      ∀ ev ∈ post, isAck ev = false ∧ isInvoke ev = false := by
  rcases m with ⟨rk, rt⟩
  cases rt with
  | none => exact ⟨[], rfl, by simp⟩
  | some q =>
    by_cases hq : q = ""
    · exact ⟨[], by simp [rpcFinish, hq], by simp⟩
    · refine ⟨[Event.put q (RVal.dict [("result", r)])], by simp [rpcFinish, hq], ?_⟩
      intro ev hev
      rw [List.mem_singleton] at hev
      subst hev
      exact ⟨rfl, rfl⟩

lemma invokeCount_rpcFinish (tev : List Event) (r : RVal) (m : Msg) :
    invokeCount (rpcFinish tev r m) = (tev.filter isInvoke).length := by
  obtain ⟨post, hev, hpost⟩ := rpcFinish_events tev r m
  rw [invokeCount, hev]
  rw [List.filter_append]
  have h2 : (Event.acked :: post).filter isInvoke = [] := by
    rw [List.filter_eq_nil_iff]
    intro a ha
    rcases List.mem_cons.mp ha with h | h
    · subst h; simp [isInvoke]
    · simpa using (hpost a h).2
  rw [h2, List.append_nil]

lemma ackCount_rpcFinish (tev : List Event) (r : RVal) (m : Msg) :
    ackCount (rpcFinish tev r m) = (tev.filter isAck).length + 1 := by
  obtain ⟨post, hev, hpost⟩ := rpcFinish_events tev r m
  rw [ackCount, hev]
  rw [List.filter_append]
  have h2 : (Event.acked :: post).filter isAck = [Event.acked] := by
    rw [List.filter_cons_of_pos (by rfl)]
    have : post.filter isAck = [] := by
      rw [List.filter_eq_nil_iff]
      intro a ha
      simpa using (hpost a ha).1
    rw [this]
  rw [h2]
  simp

lemma putEvents_rpcFinish (tev : List Event) (r : RVal) (rk q : String)
    (hq : q ≠ "") :
    putEvents (rpcFinish tev r ⟨rk, Option.some q⟩) =
      putEvents ⟨tev, Except.ok r⟩ ++ [(q, RVal.dict [("result", r)])] := by
  simp [rpcFinish, hq, putEvents]

lemma envErrCode_envelope (idv : RVal) (e : Exc) :
    envErrCode (errorEnvelope idv e) =
      Option.some (if e.ty = "AttributeError" then -32601 else -32600) := rfl

lemma envErrMsg_envelope (idv : RVal) (e : Exc) :
    envErrMsg (errorEnvelope idv e) = Option.some e.msg := rfl

lemma envErrExcData_envelope (idv : RVal) (e : Exc) :
    envErrExcData (errorEnvelope idv e) = Option.some (pyStrOfType e.ty) := rfl

lemma envId_envelope (idv : RVal) (e : Exc) :
    envField (errorEnvelope idv e) "id" = Option.some idv := rfl

/-! ### C1 -/

/-- C1 (amended): in a jsonrpc dispatch, when no handler named
`on_<method>` exists the error response carries code -32601 and no
handler is invoked; when the resolved handler raises an exception, the
error code is -32601 if the exception's exact type is AttributeError and
-32600 otherwise, `error.message` is the exception's text, and
`error.data.exception` is `str(type(error))` (the form
`<class 'Name'>`), not the bare type name. -/
theorem C1_error_code_mapping (cls : String) (hs : String → Option Handler)
    (fields : List (String × RVal)) (rk pre mth : String) (rt : Option String)
    (idv : RVal)
    (h1 : rsplitLastDot rk = Option.some (pre, mth))
    (h2 : lookupField fields "method" = Option.some (RVal.str mth))
    (h3 : lookupField fields "id" = Option.some idv) :
    (hs ("on_" ++ mth) = Option.none →
      invokeCount (wrap_on_message cls hs (RVal.dict fields) ⟨rk, rt⟩) = 0 ∧
      dispErrCode (wrap_on_message cls hs (RVal.dict fields) ⟨rk, rt⟩) =
        Option.some (-32601)) ∧
    (∀ (h : Handler) (kw : List (String × RVal)) (e : Exc),
      hs ("on_" ++ mth) = Option.some h →
      lookupField fields "params" = Option.some (RVal.dict kw) →
      h (CallArgs.named kw) = Except.error e →
      dispErrCode (wrap_on_message cls hs (RVal.dict fields) ⟨rk, rt⟩) =
        Option.some (if e.ty = "AttributeError" then -32601 else -32600) ∧
      dispErrMsg (wrap_on_message cls hs (RVal.dict fields) ⟨rk, rt⟩) =
        Option.some e.msg ∧
      dispErrExcData (wrap_on_message cls hs (RVal.dict fields) ⟨rk, rt⟩) =
        Option.some (pyStrOfType e.ty)) := by
  rw [wrap_eq_rpc cls hs fields rk pre mth rt h1 h2]
  constructor
  · intro hno
    rw [rpcDispatch_of_error cls hs fields mth ⟨rk, rt⟩ idv _ _ h3
      (rpcTried_none cls hs fields mth hno)]
    constructor
    · rw [invokeCount_rpcFinish]
      rfl
    · rw [dispErrCode, resultOf_rpcFinish, Option.some_bind, envErrCode_envelope]
      rfl
  · intro h kw e hh hp hcall
    have ht : rpcTried cls hs fields mth =
        ([Event.invoke ("on_" ++ mth)], Except.error e) := by
      rw [rpcTried_named cls hs fields mth h kw hh hp, hcall]
    rw [rpcDispatch_of_error cls hs fields mth ⟨rk, rt⟩ idv _ _ h3 ht]
    refine ⟨?_, ?_, ?_⟩
    · rw [dispErrCode, resultOf_rpcFinish, Option.some_bind, envErrCode_envelope]
    · rw [dispErrMsg, resultOf_rpcFinish, Option.some_bind, envErrMsg_envelope]
    · rw [dispErrExcData, resultOf_rpcFinish, Option.some_bind, envErrExcData_envelope]

/-- C1 (witness): the amended statement applied at a concrete dispatch:
a service with only `on_foo` and a request for method `foo` whose handler
raises a ValueError with text `boom`. -/
theorem C1_error_code_mapping_witness :
    dispErrCode (wrap_on_message "StorageService"
      (fun n => if n = "on_foo"
        then Option.some (fun _ => Except.error ⟨"ValueError", "boom"⟩)
        else Option.none)
      (RVal.dict [("method", RVal.str "foo"), ("id", RVal.str "42"),
        ("params", RVal.dict [])])
      ⟨"storage.foo", Option.some "response-q"⟩) = Option.some (-32600) ∧
    dispErrMsg (wrap_on_message "StorageService"
      (fun n => if n = "on_foo"
        then Option.some (fun _ => Except.error ⟨"ValueError", "boom"⟩)
        else Option.none)
      (RVal.dict [("method", RVal.str "foo"), ("id", RVal.str "42"),
        ("params", RVal.dict [])])
      ⟨"storage.foo", Option.some "response-q"⟩) = Option.some "boom" := by
  have hc := C1_error_code_mapping "StorageService"
    (fun n => if n = "on_foo"
      then Option.some (fun _ => Except.error ⟨"ValueError", "boom"⟩)
      else Option.none)
    [("method", RVal.str "foo"), ("id", RVal.str "42"), ("params", RVal.dict [])]
    "storage.foo" "storage" "foo" (Option.some "response-q") (RVal.str "42")
    rfl rfl rfl
  have hb := hc.2 (fun _ => Except.error ⟨"ValueError", "boom"⟩) [] ⟨"ValueError", "boom"⟩
    rfl rfl rfl
  refine ⟨?_, hb.2.1⟩
  rw [hb.1]
  decide

/-- C1 (counterexample): the claim as stated is false on the code.  A
handler that raises an AttributeError yields error code -32601, not
-32600; and `error.data.exception` for a ValueError is the string
`<class 'ValueError'>`, which is not the exception's type name
`ValueError`. -/
theorem C1_counterexample :
    dispErrCode (wrap_on_message "StorageService"
      (fun n => if n = "on_foo"
        then Option.some (fun _ => Except.error ⟨"AttributeError", "boom"⟩)
        else Option.none)
      (RVal.dict [("method", RVal.str "foo"), ("id", RVal.str "42"),
        ("params", RVal.dict [])])
      ⟨"storage.foo", Option.some "response-q"⟩) = Option.some (-32601) ∧
    invokeCount (wrap_on_message "StorageService"
      (fun n => if n = "on_foo"
        then Option.some (fun _ => Except.error ⟨"AttributeError", "boom"⟩)
        else Option.none)
      (RVal.dict [("method", RVal.str "foo"), ("id", RVal.str "42"),
        ("params", RVal.dict [])])
      ⟨"storage.foo", Option.some "response-q"⟩) = 1 ∧
    dispErrExcData (wrap_on_message "StorageService"
      (fun n => if n = "on_foo"
        then Option.some (fun _ => Except.error ⟨"ValueError", "boom"⟩)
        else Option.none)
      (RVal.dict [("method", RVal.str "foo"), ("id", RVal.str "42"),
        ("params", RVal.dict [])])
      ⟨"storage.foo", Option.some "response-q"⟩) =
        Option.some (pyStrOfType "ValueError") ∧
    pyStrOfType "ValueError" ≠ "ValueError" := by
  refine ⟨rfl, rfl, rfl, ?_⟩
  decide

/-! ### C2 -/

/-- C2 (amended): when the request declares a truthy `reply_to` address,
dispatch (success or error) publishes to that address exactly one message
of the form `{'result': r}` — with no top-level `jsonrpc` or `id` key;
on the error path the nested value `r` is the full jsonrpc error
envelope, whose `id` equals the request's id. -/
theorem C2_reply_envelope (cls : String) (hs : String → Option Handler)
    (fields : List (String × RVal)) (rk pre mth q : String) (idv : RVal)
    (h1 : rsplitLastDot rk = Option.some (pre, mth))
    (h2 : lookupField fields "method" = Option.some (RVal.str mth))
    (h3 : lookupField fields "id" = Option.some idv)
    (hq : q ≠ "") :
    (∀ (h : Handler) (kw : List (String × RVal)) (r : RVal),
      hs ("on_" ++ mth) = Option.some h →
      lookupField fields "params" = Option.some (RVal.dict kw) →
      h (CallArgs.named kw) = Except.ok r →
      putEvents (wrap_on_message cls hs (RVal.dict fields) ⟨rk, Option.some q⟩) =
        [(q, RVal.dict [("result", r)])] ∧
      envField (RVal.dict [("result", r)]) "jsonrpc" = Option.none ∧
      envField (RVal.dict [("result", r)]) "id" = Option.none) ∧
    (∀ (h : Handler) (kw : List (String × RVal)) (e : Exc),
      hs ("on_" ++ mth) = Option.some h →
      lookupField fields "params" = Option.some (RVal.dict kw) →
      h (CallArgs.named kw) = Except.error e →
      putEvents (wrap_on_message cls hs (RVal.dict fields) ⟨rk, Option.some q⟩) =
        [(q, RVal.dict [("result", errorEnvelope idv e)])] ∧
      envField (errorEnvelope idv e) "id" = Option.some idv) := by
  rw [wrap_eq_rpc cls hs fields rk pre mth (Option.some q) h1 h2]
  constructor
  · intro h kw r hh hp hcall
    have ht : rpcTried cls hs fields mth =
        ([Event.invoke ("on_" ++ mth)], Except.ok r) := by
      rw [rpcTried_named cls hs fields mth h kw hh hp, hcall]
    rw [rpcDispatch_of_ok cls hs fields mth ⟨rk, Option.some q⟩ idv r _ h3 ht]
    refine ⟨?_, rfl, rfl⟩
    rw [putEvents_rpcFinish _ _ rk q hq]
    rfl
  · intro h kw e hh hp hcall
    have ht : rpcTried cls hs fields mth =
        ([Event.invoke ("on_" ++ mth)], Except.error e) := by
      rw [rpcTried_named cls hs fields mth h kw hh hp, hcall]
    rw [rpcDispatch_of_error cls hs fields mth ⟨rk, Option.some q⟩ idv e _ h3 ht]
    refine ⟨?_, envId_envelope idv e⟩
    rw [putEvents_rpcFinish _ _ rk q hq]
    rfl

/-- C2 (witness): the amended statement applied at a concrete successful
dispatch with `reply_to = "response-q"`. -/
theorem C2_reply_envelope_witness :
    putEvents (wrap_on_message "StorageService"
      (fun n => if n = "on_foo"
        then Option.some (fun _ => Except.ok (RVal.str "ok"))
        else Option.none)
      (RVal.dict [("method", RVal.str "foo"), ("id", RVal.str "42"),
        ("params", RVal.dict [])])
      ⟨"storage.foo", Option.some "response-q"⟩) =
      [("response-q", RVal.dict [("result", RVal.str "ok")])] := by
  have hc := C2_reply_envelope "StorageService"
    (fun n => if n = "on_foo"
      then Option.some (fun _ => Except.ok (RVal.str "ok"))
      else Option.none)
    [("method", RVal.str "foo"), ("id", RVal.str "42"), ("params", RVal.dict [])]
    "storage.foo" "storage" "foo" "response-q" (RVal.str "42")
    rfl rfl rfl (by decide)
  exact (hc.1 (fun _ => Except.ok (RVal.str "ok")) [] (RVal.str "ok") rfl rfl rfl).1

/-- C2 (counterexample): the claim as stated is false on the code: after
a successful dispatch the engine publishes `{'result': 'ok'}` to the
reply address — an envelope with no `jsonrpc` and no `id` key at all, so
its id does not equal the request's id `42`. -/
theorem C2_counterexample :
    putEvents (wrap_on_message "StorageService"
      (fun n => if n = "on_bar"
        then Option.some (fun _ => Except.ok (RVal.str "ok"))
        else Option.none)
      (RVal.dict [("method", RVal.str "bar"), ("id", RVal.str "42"),
        ("params", RVal.dict [])])
      ⟨"storage.bar", Option.some "response-q"⟩) =
      [("response-q", RVal.dict [("result", RVal.str "ok")])] ∧
    envField (RVal.dict [("result", RVal.str "ok")]) "jsonrpc" = Option.none ∧
    envField (RVal.dict [("result", RVal.str "ok")]) "id" = Option.none := by
  exact ⟨rfl, rfl, rfl⟩

/-! ### C3 -/

/-- C3 (amended): failures raised inside handler resolution or handler
invocation are caught at the dispatch boundary and, when a truthy
`reply_to` is declared, converted into an error response over the reply
channel, and for any request body carrying an `id` key dispatch never
lets an exception escape into the consuming loop; however a routing key
with no dot-separated final segment raises an IndexError out of
dispatch, and a body entering the jsonrpc branch without an `id` key
raises a KeyError out of dispatch. -/
theorem C3_dispatch_boundary (cls : String) (hs : String → Option Handler)
    (fields : List (String × RVal)) (rk pre mth : String) (rt : Option String)
    (idv : RVal)
    (h1 : rsplitLastDot rk = Option.some (pre, mth))
    (h2 : lookupField fields "method" = Option.some (RVal.str mth)) :
    (lookupField fields "id" = Option.some idv →
      raised (wrap_on_message cls hs (RVal.dict fields) ⟨rk, rt⟩) = false) ∧
    (∀ (h : Handler) (kw : List (String × RVal)) (e : Exc) (q : String),
      lookupField fields "id" = Option.some idv →
      hs ("on_" ++ mth) = Option.some h →
      lookupField fields "params" = Option.some (RVal.dict kw) →
      h (CallArgs.named kw) = Except.error e →
      q ≠ "" →
      putEvents (wrap_on_message cls hs (RVal.dict fields) ⟨rk, Option.some q⟩) =
        [(q, RVal.dict [("result", errorEnvelope idv e)])]) ∧
    (∀ (body : RVal) (rk2 : String) (rt2 : Option String),
      rsplitLastDot rk2 = Option.none →
      (wrap_on_message cls hs body ⟨rk2, rt2⟩).outcome =
        Except.error (PyErr.indexError "list index out of range")) ∧
    (lookupField fields "id" = Option.none →
      (wrap_on_message cls hs (RVal.dict fields) ⟨rk, rt⟩).outcome =
        Except.error (PyErr.keyError "id")) := by
  refine ⟨?_, ?_, ?_, ?_⟩
  · intro h3
    rw [wrap_eq_rpc cls hs fields rk pre mth rt h1 h2]
    rcases htr : rpcTried cls hs fields mth with ⟨tev, tres⟩
    cases tres with
    | ok r =>
      rw [rpcDispatch_of_ok cls hs fields mth ⟨rk, rt⟩ idv r tev h3 htr]
      exact raised_rpcFinish tev r ⟨rk, rt⟩
    | error e =>
      rw [rpcDispatch_of_error cls hs fields mth ⟨rk, rt⟩ idv e tev h3 htr]
      exact raised_rpcFinish tev (errorEnvelope idv e) ⟨rk, rt⟩
  · intro h kw e q h3 hh hp hcall hq
    rw [wrap_eq_rpc cls hs fields rk pre mth (Option.some q) h1 h2]
    have ht : rpcTried cls hs fields mth =
        ([Event.invoke ("on_" ++ mth)], Except.error e) := by
      rw [rpcTried_named cls hs fields mth h kw hh hp, hcall]
    rw [rpcDispatch_of_error cls hs fields mth ⟨rk, Option.some q⟩ idv e _ h3 ht]
    rw [putEvents_rpcFinish _ _ rk q hq]
    rfl
  · intro body rk2 rt2 hnone
    unfold wrap_on_message
    rw [hnone]
  · intro h3
    rw [wrap_eq_rpc cls hs fields rk pre mth rt h1 h2]
    unfold rpcDispatch
    rcases htr : rpcTried cls hs fields mth with ⟨tev, tres⟩
    cases tres with
    | ok r => rw [h3]
    | error e => rw [h3]

/-- C3 (witness): the amended statement applied at a concrete dispatch:
a body with an id and a handler that raises is handled without any
exception escaping. -/
theorem C3_dispatch_boundary_witness :
    raised (wrap_on_message "StorageService"
      (fun n => if n = "on_foo"
        then Option.some (fun _ => Except.error ⟨"ValueError", "boom"⟩)
        else Option.none)
      (RVal.dict [("method", RVal.str "foo"), ("id", RVal.str "42"),
        ("params", RVal.dict [])])
      ⟨"storage.foo", Option.some "response-q"⟩) = false := by
  have hc := C3_dispatch_boundary "StorageService"
    (fun n => if n = "on_foo"
      then Option.some (fun _ => Except.error ⟨"ValueError", "boom"⟩)
      else Option.none)
    [("method", RVal.str "foo"), ("id", RVal.str "42"), ("params", RVal.dict [])]
    "storage.foo" "storage" "foo" (Option.some "response-q") (RVal.str "42")
    rfl rfl
  exact hc.1 rfl

/-- C3 (counterexample): the claim as stated is false on the code.  A
body whose method matches but that lacks an `id` key makes dispatch
raise a KeyError into the consuming loop with no error response
published, and a routing key without a dot makes dispatch raise an
IndexError before any handling. -/
theorem C3_counterexample :
    (wrap_on_message "StorageService"
      (fun n => if n = "on_foo"
        then Option.some (fun _ => Except.ok (RVal.str "ok"))
        else Option.none)
      (RVal.dict [("method", RVal.str "foo"), ("params", RVal.dict [])])
      ⟨"storage.foo", Option.some "response-q"⟩).outcome =
      Except.error (PyErr.keyError "id") ∧
    putEvents (wrap_on_message "StorageService"
      (fun n => if n = "on_foo"
        then Option.some (fun _ => Except.ok (RVal.str "ok"))
        else Option.none)
      (RVal.dict [("method", RVal.str "foo"), ("params", RVal.dict [])])
      ⟨"storage.foo", Option.some "response-q"⟩) = [] ∧
    (wrap_on_message "StorageService"
      (fun n => if n = "on_foo"
        then Option.some (fun _ => Except.ok (RVal.str "ok"))
        else Option.none)
      (RVal.dict [("method", RVal.str "foo"), ("id", RVal.str "42"),
        ("params", RVal.dict [])])
      ⟨"nodot", Option.some "response-q"⟩).outcome =
      Except.error (PyErr.indexError "list index out of range") := by
  exact ⟨rfl, rfl, rfl⟩

/-! ### C4 -/

lemma rpcTried_shape (cls : String) (hs : String → Option Handler)
    (fields : List (String × RVal)) (mth : String) :
    (rpcTried cls hs fields mth).1 = [] ∨
      ∃ n, (rpcTried cls hs fields mth).1 = [Event.invoke n] := by
  unfold rpcTried
  cases hs ("on_" ++ mth) with
  | none => exact Or.inl rfl
  | some h =>
    cases lookupField fields "params" with
    | none => exact Or.inl rfl
    | some p =>
      unfold callWithArgs
      cases p with
      | dict kw => exact Or.inr ⟨"on_" ++ mth, rfl⟩
      | list args => exact Or.inr ⟨"on_" ++ mth, rfl⟩
      | str s => exact Or.inr ⟨"on_" ++ mth, rfl⟩
      | num n => exact Or.inl rfl
      | bool b => exact Or.inl rfl
      | none => exact Or.inl rfl

lemma rpcTried_no_ack (cls : String) (hs : String → Option Handler)
    (fields : List (String × RVal)) (mth : String) :
    ∀ ev ∈ (rpcTried cls hs fields mth).1, isAck ev = false := by
  rcases rpcTried_shape cls hs fields mth with h | ⟨n, h⟩ <;> rw [h]
  · intro ev hev
    simp at hev
  · intro ev hev
    rw [List.mem_singleton] at hev
    subst hev
    rfl

/-- C4 (amended): for every jsonrpc dispatch whose body carries an `id`
key, the message is acknowledged exactly once, and the acknowledgement
comes after dispatch of the handler completes: in the event trace the
single ack is preceded by all handler invocations and followed by no
invocation.  When the body lacks an `id` key, the dispatch raises before
the ack line is reached and the message is never acknowledged. -/
theorem C4_ack_exactly_once (cls : String) (hs : String → Option Handler)
    (fields : List (String × RVal)) (rk pre mth : String) (rt : Option String)
    (idv : RVal)
    (h1 : rsplitLastDot rk = Option.some (pre, mth))
    (h2 : lookupField fields "method" = Option.some (RVal.str mth)) :
    (lookupField fields "id" = Option.some idv →
      ackCount (wrap_on_message cls hs (RVal.dict fields) ⟨rk, rt⟩) = 1 ∧
      ∃ l1 l2, (wrap_on_message cls hs (RVal.dict fields) ⟨rk, rt⟩).events =
          l1 ++ Event.acked :: l2 ∧
        (∀ ev ∈ l1, isAck ev = false) ∧
        (∀ ev ∈ l2, isAck ev = false ∧ isInvoke ev = false)) ∧
    (lookupField fields "id" = Option.none →
      ackCount (wrap_on_message cls hs (RVal.dict fields) ⟨rk, rt⟩) = 0) := by
  constructor
  · intro h3
    rw [wrap_eq_rpc cls hs fields rk pre mth rt h1 h2]
    have hfin : ∀ r : RVal,
        ackCount (rpcFinish (rpcTried cls hs fields mth).1 r ⟨rk, rt⟩) = 1 ∧
        ∃ l1 l2, (rpcFinish (rpcTried cls hs fields mth).1 r ⟨rk, rt⟩).events =
            l1 ++ Event.acked :: l2 ∧
          (∀ ev ∈ l1, isAck ev = false) ∧
          (∀ ev ∈ l2, isAck ev = false ∧ isInvoke ev = false) := by
      intro r
      constructor
      · rw [ackCount_rpcFinish]
        rw [List.filter_eq_nil_iff.mpr ?_]
        · rfl
        · intro a ha
          simpa using rpcTried_no_ack cls hs fields mth a ha
      · obtain ⟨post, hev, hpost⟩ :=
          rpcFinish_events (rpcTried cls hs fields mth).1 r ⟨rk, rt⟩
        exact ⟨(rpcTried cls hs fields mth).1, post, hev,
          rpcTried_no_ack cls hs fields mth, hpost⟩
    rcases htr : rpcTried cls hs fields mth with ⟨tev, tres⟩
    cases tres with
    | ok r =>
      rw [rpcDispatch_of_ok cls hs fields mth ⟨rk, rt⟩ idv r tev h3 htr]
      have := hfin r
      rw [htr] at this
      exact this
    | error e =>
      rw [rpcDispatch_of_error cls hs fields mth ⟨rk, rt⟩ idv e tev h3 htr]
      have := hfin (errorEnvelope idv e)
      rw [htr] at this
      exact this
  · intro h3
    rw [wrap_eq_rpc cls hs fields rk pre mth rt h1 h2]
    unfold rpcDispatch
    rcases htr : rpcTried cls hs fields mth with ⟨tev, tres⟩
    have hnoack : ∀ ev ∈ tev, isAck ev = false := by
      have := rpcTried_no_ack cls hs fields mth
      rw [htr] at this
      exact this
    have hnil : tev.filter isAck = [] := by
      rw [List.filter_eq_nil_iff]
      intro a ha
      simpa using hnoack a ha
    cases tres with
    | ok r =>
      rw [h3]
      rw [ackCount, hnil]
      rfl
    | error e =>
      rw [h3]
      rw [ackCount, hnil]
      rfl

/-- C4 (witness): the amended statement applied at a concrete dispatch
with an id: exactly one acknowledgement. -/
theorem C4_ack_exactly_once_witness :
    ackCount (wrap_on_message "StorageService"
      (fun n => if n = "on_foo"
        then Option.some (fun _ => Except.ok (RVal.str "ok"))
        else Option.none)
      (RVal.dict [("method", RVal.str "foo"), ("id", RVal.str "42"),
        ("params", RVal.dict [])])
      ⟨"storage.foo", Option.some "response-q"⟩) = 1 := by
  have hc := C4_ack_exactly_once "StorageService"
    (fun n => if n = "on_foo"
      then Option.some (fun _ => Except.ok (RVal.str "ok"))
      else Option.none)
    [("method", RVal.str "foo"), ("id", RVal.str "42"), ("params", RVal.dict [])]
    "storage.foo" "storage" "foo" (Option.some "response-q") (RVal.str "42")
    rfl rfl
  exact (hc.1 rfl).1

/-- C4 (counterexample): the claim as stated is false on the code: an
inbound jsonrpc message whose body lacks an `id` key is never
acknowledged (zero acks, not exactly one), because the dispatch raises a
KeyError before the ack line. -/
theorem C4_counterexample :
    ackCount (wrap_on_message "StorageService"
      (fun n => if n = "on_foo"
        then Option.some (fun _ => Except.ok (RVal.str "ok"))
        else Option.none)
      (RVal.dict [("method", RVal.str "foo"), ("params", RVal.dict [])])
      ⟨"storage.foo", Option.some "response-q"⟩) = 0 ∧
    raised (wrap_on_message "StorageService"
      (fun n => if n = "on_foo"
        then Option.some (fun _ => Except.ok (RVal.str "ok"))
        else Option.none)
      (RVal.dict [("method", RVal.str "foo"), ("params", RVal.dict [])])
      ⟨"storage.foo", Option.some "response-q"⟩) = true := by
  exact ⟨rfl, rfl⟩

/-! ### C5 -/

/-- C5 (confirmed): `request` declares a non-durable auto-deleting reply
queue named `response-<id>` from the fresh id, publishes the jsonrpc
request on the routing key with that queue attached as the reply
address, and blocks on exactly one reply wait with the default timeout
of 3; when no reply arrives the timeout failure (the queue primitive's
Empty exception) surfaces to the caller with no further wait, and
afterwards the reply queue no longer exists (it is auto-deleted once the
transient consumer is released); on a reply the payload is returned and
the queue is closed, likewise leaving no queue behind. -/
theorem C5_request_reply_queue (id rk mth : String) (params : RVal) :
    BusEvent.declareQ ("response-" ++ id) false true ∈
      (request id rk mth params Option.none).events ∧
    BusEvent.publish rk
        (RVal.dict [("jsonrpc", RVal.str "2.0"), ("id", RVal.str id),
          ("method", RVal.str mth), ("params", params)])
        ("response-" ++ id) ∈
      (request id rk mth params Option.none).events ∧
    (request id rk mth params Option.none).events.filter isGetWait =
      [BusEvent.getWait 3] ∧
    (request id rk mth params Option.none).outcome =
      Except.error PyErr.timeoutEmpty ∧
    queuesAfterRelease (request id rk mth params Option.none).events = [] ∧
    (∀ payload : RVal,
      (request id rk mth params (Option.some payload)).outcome =
        Except.ok payload ∧
      (request id rk mth params (Option.some payload)).events.filter isGetWait =
        [BusEvent.getWait 3] ∧
      queuesAfterRelease (request id rk mth params (Option.some payload)).events
        = []) := by
  refine ⟨?_, ?_, rfl, rfl, rfl, ?_⟩
  · simp [request]
  · simp [request]
  · intro payload
    refine ⟨rfl, rfl, ?_⟩
    simp [request, queuesAfterRelease, liveQueues]

/-! ### C6 -/

lemma indexOf_concat (r : Nat) (l1 l2 : List Nat) (h : r ∉ l1) :
    (l1 ++ r :: l2).indexOf r = l1.length := by
  induction l1 with
  | nil => simp
  | cons a t ih =>
    have hne : a ≠ r := fun he => h (he ▸ List.mem_cons_self a t)
    rw [List.cons_append, List.indexOf_cons_ne _ hne,
      ih (fun hm => h (List.mem_cons_of_mem a hm))]
    rfl

lemma eraseIdx_concat (r : Nat) (l1 l2 : List Nat) :
    (l1 ++ r :: l2).eraseIdx l1.length = l1 ++ l2 := by
  induction l1 with
  | nil => rfl
  | cons a t ih =>
    show a :: ((t ++ r :: l2).eraseIdx t.length) = a :: (t ++ l2)
    rw [ih]

lemma drop_append_len (l1 l2 : List Nat) (k : Nat) :
    (l1 ++ l2).drop (l1.length + k) = l2.drop k := by
  induction l1 with
  | nil => simp
  | cons a t ih =>
    have he : (a :: t).length + k = t.length + k + 1 := by
      simp [Nat.add_assoc, Nat.add_comm]
    rw [he, List.cons_append, List.drop_succ_cons, ih]

lemma pollPass_no_ready (ready : Nat → Bool) (s : MState) :
    ∀ k i, s.asyncs.length - i ≤ k →
      (∀ t ∈ s.asyncs.drop i, ready t = false) → pollPass ready i s = s := by
  intro k
  induction k with
  | zero =>
    intro i hle _
    rw [pollPass, dif_neg (by omega)]
  | succ k ih =>
    intro i hle hnone
    by_cases h : i < s.asyncs.length
    · rw [pollPass, dif_pos h]
      have hd : s.asyncs.drop i = s.asyncs[i] :: s.asyncs.drop (i + 1) :=
        List.drop_eq_getElem_cons h
      have hx : s.asyncs.get ⟨i, h⟩ ∈ s.asyncs.drop i := by
        rw [hd]
        exact List.mem_cons_self _ _
      have hr : ready (s.asyncs.get ⟨i, h⟩) = false := hnone _ hx
      rw [if_neg (by rw [hr]; exact Bool.false_ne_true)]
      exact ih (i + 1) (by omega)
        (fun t ht => hnone t (by rw [hd]; exact List.mem_cons_of_mem _ ht))
    · rw [pollPass, dif_neg h]

lemma pollPass_found (ready : Nat → Bool) (A : List Nat) :
    ∀ (i : Nat) (s : MState) (r : Nat) (B : List Nat),
      s.asyncs.drop i = A ++ r :: B →
      (∀ t ∈ A, ready t = false) →
      (∀ t ∈ B, ready t = false) →
      ready r = true →
      ready s.nextId = false →
      r ∉ s.asyncs.take i →
      r ∉ A →
      pollPass ready i s =
        { asyncs := s.asyncs.take i ++ A ++ B ++ [s.nextId],
          launched := s.launched + 1, nextId := s.nextId + 1 } := by
  induction A with
  | nil =>
    intro i s r B hdrop hA hB hr hnew hrt hrA
    have hlen : i < s.asyncs.length := by
      by_contra hc
      rw [List.drop_eq_nil_of_le (by omega)] at hdrop
      exact List.cons_ne_nil r B hdrop.symm
    have hd : s.asyncs.drop i = s.asyncs[i] :: s.asyncs.drop (i + 1) :=
      List.drop_eq_getElem_cons hlen
    have hget : s.asyncs.get ⟨i, hlen⟩ = r := by
      have := hd.symm.trans hdrop
      rw [List.nil_append] at this
      exact (List.cons.injEq _ _ _ _ ▸ this).1
    have hsplit : s.asyncs = s.asyncs.take i ++ r :: B := by
      conv_lhs => rw [← List.take_append_drop i s.asyncs]
      rw [hdrop, List.nil_append]
    have htklen : (s.asyncs.take i).length = i := by
      rw [List.length_take]
      omega
    have hidx : s.asyncs.indexOf r = i := by
      conv_lhs => rw [hsplit]
      rw [indexOf_concat r _ B hrt, htklen]
    have hkey : (s.asyncs.take i ++ r :: B).eraseIdx i = s.asyncs.take i ++ B := by
      have h0 := eraseIdx_concat r (s.asyncs.take i) B
      rw [htklen] at h0
      exact h0
    have hera : s.asyncs.eraseIdx (s.asyncs.indexOf r) =
        s.asyncs.take i ++ B := by
      rw [hidx]
      conv_lhs => rw [hsplit]
      exact hkey
    rw [pollPass, dif_pos hlen, hget, if_pos hr, hera]
    have hfin := pollPass_no_ready ready
      (startProcess { s with asyncs := s.asyncs.take i ++ B })
      ((startProcess { s with asyncs := s.asyncs.take i ++ B }).asyncs.length)
      (i + 1) (by omega) ?_
    · rw [hfin]
      simp [startProcess]
    · intro t ht
      have hshape : (startProcess { s with asyncs := s.asyncs.take i ++ B }).asyncs
          = s.asyncs.take i ++ (B ++ [s.nextId]) := by
        simp [startProcess]
      have hd1 : (s.asyncs.take i ++ (B ++ [s.nextId])).drop (i + 1) =
          (B ++ [s.nextId]).drop 1 := by
        have h0 := drop_append_len (s.asyncs.take i) (B ++ [s.nextId]) 1
        rw [htklen] at h0
        exact h0
      rw [hshape, hd1] at ht
      have ht3 : t ∈ B ++ [s.nextId] := List.drop_subset 1 _ ht
      rcases List.mem_append.mp ht3 with hb | hn
      · exact hB t hb
      · rw [List.mem_singleton] at hn
        subst hn
        exact hnew
  | cons a A2 ih =>
    intro i s r B hdrop hA hB hr hnew hrt hrA
    have hlen : i < s.asyncs.length := by
      by_contra hc
      rw [List.drop_eq_nil_of_le (by omega)] at hdrop
      exact List.cons_ne_nil a (A2 ++ r :: B) hdrop.symm
    have hd : s.asyncs.drop i = s.asyncs[i] :: s.asyncs.drop (i + 1) :=
      List.drop_eq_getElem_cons hlen
    have hcons : s.asyncs[i] :: s.asyncs.drop (i + 1) = a :: (A2 ++ r :: B) := by
      rw [← hd, hdrop, List.cons_append]
    have hget : s.asyncs.get ⟨i, hlen⟩ = a := (List.cons.injEq _ _ _ _ ▸ hcons).1
    have hdrop2 : s.asyncs.drop (i + 1) = A2 ++ r :: B :=
      (List.cons.injEq _ _ _ _ ▸ hcons).2
    have hra : ready a = false := hA a (List.mem_cons_self a A2)
    rw [pollPass, dif_pos hlen, hget,
      if_neg (by rw [hra]; exact Bool.false_ne_true)]
    have hres := ih (i + 1) s r B hdrop2
      (fun t ht => hA t (List.mem_cons_of_mem a ht)) hB hr hnew ?_ ?_
    · rw [hres]
      have htake : s.asyncs.take (i + 1) = s.asyncs.take i ++ [a] := by
        rw [List.take_succ]
        have : s.asyncs[i]? = Option.some a := by
          rw [List.getElem?_eq_getElem hlen]
          exact congrArg Option.some hget
        rw [this]
        rfl
      rw [htake]
      simp
    · rw [List.take_succ]
      have : s.asyncs[i]? = Option.some a := by
        rw [List.getElem?_eq_getElem hlen]
        exact congrArg Option.some hget
      rw [this]
      intro hm
      rcases List.mem_append.mp hm with h1 | h2
      · exact hrt h1
      · have : r = a := by simpa using h2
        exact hrA (this ▸ List.mem_cons_self a A2)
    · exact fun hm => hrA (List.mem_cons_of_mem a hm)

/-- C6 (confirmed): in the supervisor's poll loop, when exactly one
tracked worker task has completed, one poll pass drops it from the
tracked list and launches exactly one replacement: the tracked count is
again the original `process_count`, the completed task is gone, every
untouched task keeps running, and the lifetime launch count grows by
exactly one (starting from `process_count` launches at startup, as the
final conjunct about the launch loop states). -/
theorem C6_supervisor_replacement (ready : Nat → Bool) (s : MState)
    (A B : List Nat) (r : Nat)
    (hs : s.asyncs = A ++ r :: B)
    (hA : ∀ t ∈ A, ready t = false)
    (hB : ∀ t ∈ B, ready t = false)
    (hr : ready r = true)
    (hnew : ready s.nextId = false)
    (hrA : r ∉ A) (hrB : r ∉ B) (hrn : r ≠ s.nextId) :
    (pollPass ready 0 s).asyncs = A ++ B ++ [s.nextId] ∧
    (pollPass ready 0 s).asyncs.length = s.asyncs.length ∧
    r ∉ (pollPass ready 0 s).asyncs ∧
    (∀ t ∈ s.asyncs, t ≠ r → t ∈ (pollPass ready 0 s).asyncs) ∧
    (pollPass ready 0 s).launched = s.launched + 1 ∧
    (∀ n : Nat, (initManager n).launched = n ∧
      (initManager n).asyncs.length = n) := by
  have hmain := pollPass_found ready A 0 s r B
    (by rw [List.drop_zero]; exact hs) hA hB hr hnew (by simp) hrA
  have hasy : (pollPass ready 0 s).asyncs = A ++ B ++ [s.nextId] := by
    rw [hmain]
    simp
  refine ⟨hasy, ?_, ?_, ?_, ?_, ?_⟩
  · rw [hasy, hs]
    simp [List.length_append]
  · rw [hasy]
    intro hm
    rcases List.mem_append.mp hm with h1 | h2
    · rcases List.mem_append.mp h1 with ha | hb
      · exact hrA ha
      · exact hrB hb
    · exact hrn (by simpa using h2)
  · intro t ht hne
    rw [hasy]
    rw [hs] at ht
    rcases List.mem_append.mp ht with ha | hrb
    · exact List.mem_append.mpr (Or.inl (List.mem_append.mpr (Or.inl ha)))
    · rcases List.mem_cons.mp hrb with he | hb
      · exact absurd he hne
      · exact List.mem_append.mpr (Or.inl (List.mem_append.mpr (Or.inr hb)))
  · rw [hmain]
  · intro n
    induction n with
    | zero => exact ⟨rfl, rfl⟩
    | succ k ihk =>
      refine ⟨?_, ?_⟩
      · show (startProcess (initManager k)).launched = k + 1
        rw [startProcess, ihk.1]
      · show (startProcess (initManager k)).asyncs.length = k + 1
        rw [startProcess]
        simp [ihk.2]

/-- C6 (witness): the theorem applied to a concrete pool of three
workers `[0, 1, 2]` in which exactly task 1 has completed: one poll pass
yields tracked tasks `[0, 2, 3]` and a lifetime launch count of 4. -/
theorem C6_supervisor_replacement_witness :
    (pollPass (fun t => decide (t = 1)) 0 ⟨[0, 1, 2], 3, 3⟩).asyncs = [0, 2, 3] ∧
    (pollPass (fun t => decide (t = 1)) 0 ⟨[0, 1, 2], 3, 3⟩).launched = 4 := by
  have hc := C6_supervisor_replacement (fun t => decide (t = 1))
    ⟨[0, 1, 2], 3, 3⟩ [0] [2] 1 rfl (by decide) (by decide) (by decide)
    (by decide) (by decide) (by decide) (by decide)
  exact ⟨hc.1, hc.2.2.2.2.1⟩

/-! ### C7 -/

lemma mem_setInsert (acc : List String) (x y : String) :
    y ∈ setInsert acc x ↔ y ∈ acc ∨ y = x := by
  unfold setInsert
  by_cases h : x ∈ acc
  · rw [if_pos h]
    constructor
    · exact Or.inl
    · rintro (hy | rfl)
      · exact hy
      · exact h
  · rw [if_neg h]
    simp

lemma nodup_setInsert (acc : List String) (x : String) (h : acc.Nodup) :
    (setInsert acc x).Nodup := by
  unfold setInsert
  by_cases hx : x ∈ acc
  · rw [if_pos hx]
    exact h
  · rw [if_neg hx]
    simpa [List.nodup_append] using ⟨h, hx⟩

lemma mem_setUpdate (xs : List String) :
    ∀ (acc : List String) (y : String),
      y ∈ setUpdate acc xs ↔ y ∈ acc ∨ y ∈ xs := by
  induction xs with
  | nil =>
    intro acc y
    simp [setUpdate]
  | cons x t ih =>
    intro acc y
    show y ∈ setUpdate (setInsert acc x) t ↔ _
    rw [ih (setInsert acc x) y, mem_setInsert]
    constructor
    · rintro ((hy | rfl) | ht)
      · exact Or.inl hy
      · exact Or.inr (List.mem_cons_self _ _)
      · exact Or.inr (List.mem_cons_of_mem _ ht)
    · rintro (hy | hxt)
      · exact Or.inl (Or.inl hy)
      · rcases List.mem_cons.mp hxt with rfl | ht
        · exact Or.inl (Or.inr rfl)
        · exact Or.inr ht

lemma nodup_setUpdate (xs : List String) :
    ∀ acc : List String, acc.Nodup → (setUpdate acc xs).Nodup := by
  induction xs with
  | nil =>
    intro acc h
    exact h
  | cons x t ih =>
    intro acc h
    exact ih (setInsert acc x) (nodup_setInsert acc x h)

lemma tails_any_isEmpty (s : List Char) :
    s.tails.any (fun t => t.isEmpty) = true := by
  induction s with
  | nil => rfl
  | cons c cs ih => simp [ih]

lemma globMatch_star (s : List Char) : globMatch ['*'] s = true := by
  show (if ('*' : Char) = '*' then s.tails.any (fun t => globMatch [] t)
    else _) = true
  rw [if_pos rfl]
  have : (fun t => globMatch ([] : List Char) t) = (fun t : List Char => t.isEmpty) := by
    funext t
    rfl
  rw [this]
  exact tails_any_isEmpty s

lemma fnmatchFilter_star (names : List String) : fnmatchFilter names "*" = names := by
  unfold fnmatchFilter
  rw [List.filter_eq_self]
  intro a _
  exact globMatch_star a.data

lemma matchModels_ok (catalog : List (String × String)) (pats : List String) :
    ∀ acc : List String,
      (∀ p ∈ pats, fnmatchFilter (catalog.map Prod.fst) p ≠ []) →
      ∃ res, matchModels catalog (pats.map RVal.str) acc = Except.ok res ∧
        (∀ y, y ∈ res ↔ y ∈ acc ∨ ∃ p ∈ pats,
          y ∈ (fnmatchFilter (catalog.map Prod.fst) p).map (lookupType catalog)) ∧
        (acc.Nodup → res.Nodup) := by
  induction pats with
  | nil =>
    intro acc _
    refine ⟨acc, rfl, ?_, fun h => h⟩
    intro y
    simp
  | cons p t ih =>
    intro acc hall
    have hp : fnmatchFilter (catalog.map Prod.fst) p ≠ [] :=
      hall p (List.mem_cons_self p t)
    have hstep : matchModels catalog ((p :: t).map RVal.str) acc =
        matchModels catalog (t.map RVal.str)
          (setUpdate acc ((fnmatchFilter (catalog.map Prod.fst) p).map
            (lookupType catalog))) := by
      show (if (fnmatchFilter (catalog.map Prod.fst) p).isEmpty
          then Except.error (ConfigErr.noMatchForModel p)
          else _) = _
      rw [if_neg (by simpa [List.isEmpty_iff] using hp)]
    obtain ⟨res, hres, hmem, hnd⟩ := ih
      (setUpdate acc ((fnmatchFilter (catalog.map Prod.fst) p).map
        (lookupType catalog)))
      (fun q hq => hall q (List.mem_cons_of_mem p hq))
    refine ⟨res, hstep.trans hres, ?_, ?_⟩
    · intro y
      rw [hmem y, mem_setUpdate]
      constructor
      · rintro ((hy | hy) | ⟨q, hq, hy⟩)
        · exact Or.inl hy
        · exact Or.inr ⟨p, List.mem_cons_self p t, hy⟩
        · exact Or.inr ⟨q, List.mem_cons_of_mem p hq, hy⟩
      · rintro (hy | ⟨q, hq, hy⟩)
        · exact Or.inl (Or.inl hy)
        · rcases List.mem_cons.mp hq with rfl | hq2
          · exact Or.inl (Or.inr hy)
          · exact Or.inr ⟨q, hq2, hy⟩
    · intro hacc
      exact hnd (nodup_setUpdate _ acc hacc)

lemma matchModels_err (catalog : List (String × String)) (good : List String)
    (bad : String) (rest : List String) :
    ∀ acc : List String,
      (∀ p ∈ good, fnmatchFilter (catalog.map Prod.fst) p ≠ []) →
      fnmatchFilter (catalog.map Prod.fst) bad = [] →
      matchModels catalog ((good ++ bad :: rest).map RVal.str) acc =
        Except.error (ConfigErr.noMatchForModel bad) := by
  induction good with
  | nil =>
    intro acc _ hbad
    show (if (fnmatchFilter (catalog.map Prod.fst) bad).isEmpty
        then Except.error (ConfigErr.noMatchForModel bad)
        else _) = _
    rw [if_pos (by rw [hbad]; rfl)]
  | cons p t ih =>
    intro acc hgood hbad
    have hp : fnmatchFilter (catalog.map Prod.fst) p ≠ [] :=
      hgood p (List.mem_cons_self p t)
    have hstep : matchModels catalog ((p :: (t ++ bad :: rest)).map RVal.str) acc =
        matchModels catalog ((t ++ bad :: rest).map RVal.str)
          (setUpdate acc ((fnmatchFilter (catalog.map Prod.fst) p).map
            (lookupType catalog))) := by
      show (if (fnmatchFilter (catalog.map Prod.fst) p).isEmpty
          then Except.error (ConfigErr.noMatchForModel p)
          else _) = _
      rw [if_neg (by simpa [List.isEmpty_iff] using hp)]
    rw [List.cons_append, hstep]
    exact ih _ (fun q hq => hgood q (List.mem_cons_of_mem p hq)) hbad

lemma register_eval_patterns (importPlugin : RVal → Except ConfigErr String)
    (catalog : List (String × String)) (fields : List (String × RVal))
    (nameVal : RVal) (hty : String) (pats : List RVal)
    (hn : lookupField fields "name" = Option.some nameVal)
    (hip : importPlugin nameVal = Except.ok hty)
    (hm : lookupField (eraseKey "name" fields) "models" =
      Option.some (RVal.list pats)) :
    register_store_handler importPlugin catalog (RVal.dict fields) =
      (match matchModels catalog pats [] with
       | Except.error e =>
         (RVal.dict (eraseKey "models" (eraseKey "name" fields)), Except.error e)
       | Except.ok tys =>
         (RVal.dict (eraseKey "models" (eraseKey "name" fields)),
          Except.ok ⟨hty, eraseKey "models" (eraseKey "name" fields), tys⟩)) := by
  simp only [register_store_handler, hn, hip, hm, iterValue]

lemma register_eval_default (importPlugin : RVal → Except ConfigErr String)
    (catalog : List (String × String)) (fields : List (String × RVal))
    (nameVal : RVal) (hty : String)
    (hn : lookupField fields "name" = Option.some nameVal)
    (hip : importPlugin nameVal = Except.ok hty)
    (hm : lookupField (eraseKey "name" fields) "models" = Option.none) :
    register_store_handler importPlugin catalog (RVal.dict fields) =
      (match matchModels catalog [RVal.str "*"] [] with
       | Except.error e => (RVal.dict (eraseKey "name" fields), Except.error e)
       | Except.ok tys =>
         (RVal.dict (eraseKey "name" fields),
          Except.ok ⟨hty, eraseKey "name" fields, tys⟩)) := by
  simp only [register_store_handler, hn, hip, hm, iterValue]

/-- C7 (confirmed): store-handler registration resolves the optional
`models` patterns (default `['*']`) pattern by pattern against the full
type-name catalog: a pattern with zero matches is a configuration error
naming that pattern (the first such pattern aborting the entry), and on
success the registered type set is the deduplicated union of the matches
of all patterns; in particular, `{'name': 'X', 'models': ['Node*']}`
against the catalog {NodeModel, NetworkModel, ClusterModel} yields
exactly {NodeModel}, and `models = ['NoSuchPrefix*']` fails with a
configuration error naming `NoSuchPrefix*`. -/
theorem C7_pattern_registration (importPlugin : RVal → Except ConfigErr String)
    (catalog : List (String × String)) (fields : List (String × RVal))
    (nameVal : RVal) (hty : String) (pats : List String)
    (hn : lookupField fields "name" = Option.some nameVal)
    (hip : importPlugin nameVal = Except.ok hty) :
    (lookupField (eraseKey "name" fields) "models" =
        Option.some (RVal.list (pats.map RVal.str)) →
      (∀ p ∈ pats, fnmatchFilter (catalog.map Prod.fst) p ≠ []) →
      ∃ reg, (register_store_handler importPlugin catalog (RVal.dict fields)).2 =
          Except.ok reg ∧
        reg.model_types.Nodup ∧
        (∀ y, y ∈ reg.model_types ↔ ∃ p ∈ pats,
          y ∈ (fnmatchFilter (catalog.map Prod.fst) p).map (lookupType catalog))) ∧
    (∀ good bad rest, pats = good ++ bad :: rest →
      lookupField (eraseKey "name" fields) "models" =
        Option.some (RVal.list (pats.map RVal.str)) →
      (∀ p ∈ good, fnmatchFilter (catalog.map Prod.fst) p ≠ []) →
      fnmatchFilter (catalog.map Prod.fst) bad = [] →
      (register_store_handler importPlugin catalog (RVal.dict fields)).2 =
        Except.error (ConfigErr.noMatchForModel bad)) ∧
    (lookupField (eraseKey "name" fields) "models" = Option.none →
      catalog ≠ [] →
      ∃ reg, (register_store_handler importPlugin catalog (RVal.dict fields)).2 =
          Except.ok reg ∧
        (∀ y, y ∈ reg.model_types ↔
          y ∈ (catalog.map Prod.fst).map (lookupType catalog))) ∧
    (register_store_handler
        (fun v => match v with
          | RVal.str s2 => Except.ok s2
          | _ => Except.error (ConfigErr.pluginError "not a string"))
        [("NodeModel", "NodeModel"), ("NetworkModel", "NetworkModel"),
         ("ClusterModel", "ClusterModel")]
        (RVal.dict [("name", RVal.str "X"),
          ("models", RVal.list [RVal.str "Node*"])])).2 =
      Except.ok ⟨"X", [], ["NodeModel"]⟩ ∧
    (register_store_handler
        (fun v => match v with
          | RVal.str s2 => Except.ok s2
          | _ => Except.error (ConfigErr.pluginError "not a string"))
        [("NodeModel", "NodeModel"), ("NetworkModel", "NetworkModel"),
         ("ClusterModel", "ClusterModel")]
        (RVal.dict [("name", RVal.str "X"),
          ("models", RVal.list [RVal.str "NoSuchPrefix*"])])).2 =
      Except.error (ConfigErr.noMatchForModel "NoSuchPrefix*") := by
  refine ⟨?_, ?_, ?_, by rfl, by rfl⟩
  · intro hm hall
    obtain ⟨res, hres, hmem, hnd⟩ := matchModels_ok catalog pats [] hall
    rw [register_eval_patterns importPlugin catalog fields nameVal hty _ hn hip hm]
    rw [hres]
    refine ⟨⟨hty, eraseKey "models" (eraseKey "name" fields), res⟩, rfl,
      hnd List.nodup_nil, ?_⟩
    intro y
    rw [hmem y]
    simp
  · intro good bad rest hsplit hm hgood hbad
    rw [register_eval_patterns importPlugin catalog fields nameVal hty _ hn hip hm]
    rw [hsplit, matchModels_err catalog good bad rest [] hgood hbad]
  · intro hm hcat
    have hall : ∀ p ∈ ["*"], fnmatchFilter (catalog.map Prod.fst) p ≠ [] := by
      intro p hp
      rw [List.mem_singleton] at hp
      subst hp
      rw [fnmatchFilter_star]
      intro hemp
      exact hcat (List.map_eq_nil_iff.mp hemp)
    obtain ⟨res, hres, hmem, _⟩ := matchModels_ok catalog ["*"] [] hall
    rw [register_eval_default importPlugin catalog fields nameVal hty hn hip hm]
    have hres2 : matchModels catalog [RVal.str "*"] [] = Except.ok res := hres
    rw [hres2]
    refine ⟨⟨hty, eraseKey "name" fields, res⟩, rfl, ?_⟩
    intro y
    rw [hmem y]
    simp [fnmatchFilter_star]

/-- C7 (witness): the general success clause applied at the concrete
catalog {NodeModel, NetworkModel, ClusterModel} with patterns
`['Node*']`. -/
theorem C7_pattern_registration_witness :
    ∃ reg, (register_store_handler
        (fun v => match v with
          | RVal.str s2 => Except.ok s2
          | _ => Except.error (ConfigErr.pluginError "not a string"))
        [("NodeModel", "NodeModel"), ("NetworkModel", "NetworkModel"),
         ("ClusterModel", "ClusterModel")]
        (RVal.dict [("name", RVal.str "X"),
          ("models", RVal.list [RVal.str "Node*"])])).2 =
      Except.ok reg ∧ reg.model_types.Nodup := by
  have hc := C7_pattern_registration
    (fun v => match v with
      | RVal.str s2 => Except.ok s2
      | _ => Except.error (ConfigErr.pluginError "not a string"))
    [("NodeModel", "NodeModel"), ("NetworkModel", "NetworkModel"),
     ("ClusterModel", "ClusterModel")]
    [("name", RVal.str "X"), ("models", RVal.list [RVal.str "Node*"])]
    (RVal.str "X") "X" ["Node*"] rfl rfl
  obtain ⟨reg, h1, h2, _⟩ := hc.1 rfl (by decide)
  exact ⟨reg, h1, h2⟩

/-! ### C8 -/

/-- C8 (confirmed): `on_list_store_handlers` returns one entry per
registration, in registration order (appending a registration appends
one entry), each entry carrying the implementation name, the remaining
config, and the served model type names as a lexicographically sorted
permutation of the registered names; sorting makes the listed names
independent of the order in which the types were registered. -/
theorem C8_list_store_handlers (tbl : List HandlerReg) :
    (on_list_store_handlers tbl).length = tbl.length ∧
    (∀ (i : Nat) (r : HandlerReg) (e : LSHEntry),
      tbl[i]? = Option.some r →
      (on_list_store_handlers tbl)[i]? = Option.some e →
      e.handler_type = r.handler_type ∧ e.config = r.config ∧
      e.model_types.Sorted (fun a b => a ≤ b) ∧
      e.model_types.Perm r.model_types) ∧
    (∀ r : HandlerReg, on_list_store_handlers (register_with_manager tbl r) =
      on_list_store_handlers tbl ++
        [⟨r.handler_type, r.config, sortNames r.model_types⟩]) ∧
    (∀ l1 l2 : List String, l1.Perm l2 → sortNames l1 = sortNames l2) := by
  refine ⟨?_, ?_, ?_, ?_⟩
  · simp [on_list_store_handlers]
  · intro i r e hr he
    rw [on_list_store_handlers, List.getElem?_map, hr] at he
    have he2 : (⟨r.handler_type, r.config, sortNames r.model_types⟩ : LSHEntry)
        = e := by
      simpa using he
    rw [← he2]
    exact ⟨rfl, rfl, List.sorted_insertionSort _ _,
      List.perm_insertionSort _ _⟩
  · intro r
    rw [on_list_store_handlers, on_list_store_handlers, register_with_manager,
      List.map_append]
    rfl
  · intro l1 l2 hp
    have hperm : (sortNames l1).Perm (sortNames l2) :=
      ((List.perm_insertionSort _ l1).trans hp).trans
        (List.perm_insertionSort _ l2).symm
    exact List.eq_of_perm_of_sorted hperm
      (List.sorted_insertionSort _ l1) (List.sorted_insertionSort _ l2)

/-- C8 (witness): the theorem applied at a concrete one-entry table whose
model types were registered in non-lexicographic order, and at two
permuted registration-time orders of the same types. -/
theorem C8_list_store_handlers_witness :
    (on_list_store_handlers
      [⟨"EtcdStoreHandler", [], ["NodeModel", "ClusterModel"]⟩]).length = 1 ∧
    sortNames ["NodeModel", "ClusterModel"] =
      sortNames ["ClusterModel", "NodeModel"] ∧
    (∃ e : LSHEntry,
      (on_list_store_handlers
        [⟨"EtcdStoreHandler", [], ["NodeModel", "ClusterModel"]⟩])[0]? =
        Option.some e ∧
      e.model_types.Sorted (fun a b => a ≤ b)) := by
  have hc := C8_list_store_handlers
    [⟨"EtcdStoreHandler", [], ["NodeModel", "ClusterModel"]⟩]
  refine ⟨hc.1, hc.2.2.2 _ _ (by decide), ?_⟩
  obtain ⟨_, _, hsort, _⟩ := hc.2.1 0
    ⟨"EtcdStoreHandler", [], ["NodeModel", "ClusterModel"]⟩
    ⟨"EtcdStoreHandler", [], sortNames ["NodeModel", "ClusterModel"]⟩ rfl rfl
  exact ⟨_, rfl, hsort⟩

/-! ### C9 -/

/-- C9 (code bug): `_build_model` parses a string payload as JSON and an
unknown type name raises a lookup error (KeyError), and a parse failure
raises the parser's data-format error (JSONDecodeError); but for a
string payload parsing to a non-object (here `"[1, 2]"`) the code
executes `raise json.decoder.JSONDecodeError('Model data expected to be
a JSON object')`, whose constructor requires `(msg, doc, pos)`, so the
raise itself fails with a TypeError instead of the intended data-format
error. -/
theorem C9_build_model_errors :
    build_model [("NodeModel", "NodeModel")]
      (fun s => if s = "[1, 2]"
        then Except.ok (RVal.list [RVal.num 1, RVal.num 2])
        else Except.error "Expecting value: line 1 column 1 (char 0)")
      (fun _ fs => Except.ok (RVal.dict fs))
      "NodeModel" (RVal.str "[1, 2]") =
      Except.error (PyErr.typeError jsonCtorArityMsg) ∧
    build_model [("NodeModel", "NodeModel")]
      (fun s => if s = "[1, 2]"
        then Except.ok (RVal.list [RVal.num 1, RVal.num 2])
        else Except.error "Expecting value: line 1 column 1 (char 0)")
      (fun _ fs => Except.ok (RVal.dict fs))
      "NodeModel" (RVal.str "not json") =
      Except.error
        (PyErr.jsonDecodeError "Expecting value: line 1 column 1 (char 0)") ∧
    build_model [("NodeModel", "NodeModel")]
      (fun s => if s = "[1, 2]"
        then Except.ok (RVal.list [RVal.num 1, RVal.num 2])
        else Except.error "Expecting value: line 1 column 1 (char 0)")
      (fun _ fs => Except.ok (RVal.dict fs))
      "NoSuchModel" (RVal.dict [("address", RVal.str "10.0.0.1")]) =
      Except.error (PyErr.keyError "NoSuchModel") := by
  exact ⟨rfl, rfl, rfl⟩

/-! ### C10 -/

lemma lookupField_eraseKey_ne (k k2 : String) (h : k2 ≠ k) :
    ∀ l : List (String × RVal),
      lookupField (eraseKey k l) k2 = lookupField l k2 := by
  intro l
  induction l with
  | nil => rfl
  | cons a t ih =>
    rcases a with ⟨k0, v⟩
    by_cases h0 : k0 = k
    · rw [eraseKey, if_pos h0]
      rw [lookupField, if_neg (fun he => h (he.symm.trans h0))]
    · rw [eraseKey, if_neg h0]
      rw [lookupField, lookupField]
      by_cases h2 : k0 = k2
      · rw [if_pos h2, if_pos h2]
      · rw [if_neg h2, if_neg h2]
        exact ih

lemma lookupField_none_iff (k : String) :
    ∀ l : List (String × RVal),
      lookupField l k = Option.none ↔ k ∉ l.map Prod.fst := by
  intro l
  induction l with
  | nil => simp [lookupField]
  | cons a t ih =>
    rcases a with ⟨k0, v⟩
    rw [lookupField]
    by_cases h0 : k0 = k
    · rw [if_pos h0]
      simp [h0]
    · rw [if_neg h0]
      rw [ih]
      constructor
      · intro hnt
        rw [List.map_cons, List.mem_cons]
        rintro (he | hm)
        · exact h0 he.symm
        · exact hnt hm
      · intro hnc hm
        exact hnc (by rw [List.map_cons, List.mem_cons]; exact Or.inr hm)

lemma eraseKey_of_not_mem (k : String) :
    ∀ l : List (String × RVal), k ∉ l.map Prod.fst → eraseKey k l = l := by
  intro l
  induction l with
  | nil => intro _; rfl
  | cons a t ih =>
    rcases a with ⟨k0, v⟩
    intro hm
    rw [List.map_cons, List.mem_cons] at hm
    push_neg at hm
    rw [eraseKey, if_neg (fun he => hm.1 he.symm), ih hm.2]

lemma keys_eraseKey_sublist (k : String) :
    ∀ l : List (String × RVal),
      ((eraseKey k l).map Prod.fst).Sublist (l.map Prod.fst) := by
  intro l
  induction l with
  | nil => exact List.Sublist.refl _
  | cons a t ih =>
    rcases a with ⟨k0, v⟩
    by_cases h0 : k0 = k
    · rw [eraseKey, if_pos h0]
      exact List.sublist_cons_of_sublist k0 (List.Sublist.refl _)
    · rw [eraseKey, if_neg h0]
      exact List.Sublist.cons₂ k0 ih

lemma lookupField_eraseKey_self (k : String) :
    ∀ l : List (String × RVal), (l.map Prod.fst).Nodup →
      lookupField (eraseKey k l) k = Option.none := by
  intro l
  induction l with
  | nil => intro _; rfl
  | cons a t ih =>
    rcases a with ⟨k0, v⟩
    intro hnd
    rw [List.map_cons, List.nodup_cons] at hnd
    by_cases h0 : k0 = k
    · rw [eraseKey, if_pos h0]
      exact (lookupField_none_iff k t).mpr (h0 ▸ hnd.1)
    · rw [eraseKey, if_neg h0]
      rw [lookupField, if_neg h0]
      exact ih hnd.2

/-- C10 (confirmed): a successful `register_store_handler` call mutates
the configuration mapping passed to it by removing exactly the `name`
key and the `models` key (when present): the final state of the argument
is the stored config, the stored config is the input minus those two
keys, it contains neither key, and every other key-value pair is looked
up unchanged. -/
theorem C10_config_mutation (importPlugin : RVal → Except ConfigErr String)
    (catalog : List (String × String)) (fields : List (String × RVal))
    (reg : HandlerReg)
    (hnd : (fields.map Prod.fst).Nodup)
    (hok : (register_store_handler importPlugin catalog (RVal.dict fields)).2 =
      Except.ok reg) :
    reg.config = eraseKey "models" (eraseKey "name" fields) ∧
    (register_store_handler importPlugin catalog (RVal.dict fields)).1 =
      RVal.dict reg.config ∧
    lookupField reg.config "name" = Option.none ∧
    lookupField reg.config "models" = Option.none ∧
    (∀ k, k ≠ "name" → k ≠ "models" →
      lookupField reg.config k = lookupField fields k) := by
  have hnd1 : ((eraseKey "name" fields).map Prod.fst).Nodup :=
    (keys_eraseKey_sublist "name" fields).nodup hnd
  have hcfg : reg.config = eraseKey "models" (eraseKey "name" fields) ∧
      (register_store_handler importPlugin catalog (RVal.dict fields)).1 =
        RVal.dict reg.config := by
    rcases hn : lookupField fields "name" with _ | nameVal
    · have hbad : (register_store_handler importPlugin catalog
          (RVal.dict fields)).2 = Except.error ConfigErr.missingNameKey := by
        simp only [register_store_handler, hn]
      rw [hbad] at hok
      exact absurd hok (by simp)
    · rcases hip : importPlugin nameVal with e | hty
      · have hbad : (register_store_handler importPlugin catalog
            (RVal.dict fields)).2 = Except.error e := by
          simp only [register_store_handler, hn, hip]
        rw [hbad] at hok
        exact absurd hok (by simp)
      · rcases hm : lookupField (eraseKey "name" fields) "models" with _ | mv
        · have heval := register_eval_default importPlugin catalog fields
            nameVal hty hn hip hm
          have hmab : eraseKey "models" (eraseKey "name" fields) =
              eraseKey "name" fields :=
            eraseKey_of_not_mem "models" _ ((lookupField_none_iff _ _).mp hm)
          rcases hmm : matchModels catalog [RVal.str "*"] [] with e2 | tys
          · rw [heval, hmm] at hok
            exact absurd hok (by simp)
          · rw [heval, hmm] at hok
            have hreg : reg = ⟨hty, eraseKey "name" fields, tys⟩ := by
              have := hok
              simp only [Except.ok.injEq] at this
              exact this.symm
            rw [hreg, heval, hmm, hmab]
            exact ⟨rfl, rfl⟩
        · rcases hiter : iterValue mv with e2 | pats
          · have hbad : (register_store_handler importPlugin catalog
                (RVal.dict fields)).2 = Except.error e2 := by
              simp only [register_store_handler, hn, hip, hm, hiter]
            rw [hbad] at hok
            exact absurd hok (by simp)
          · rcases hmm : matchModels catalog pats [] with e3 | tys
            · have hbad : (register_store_handler importPlugin catalog
                  (RVal.dict fields)).2 = Except.error e3 := by
                simp only [register_store_handler, hn, hip, hm, hiter, hmm]
              rw [hbad] at hok
              exact absurd hok (by simp)
            · have hgood : (register_store_handler importPlugin catalog
                  (RVal.dict fields)).2 = Except.ok
                    ⟨hty, eraseKey "models" (eraseKey "name" fields), tys⟩ := by
                simp only [register_store_handler, hn, hip, hm, hiter, hmm]
              have hfst : (register_store_handler importPlugin catalog
                  (RVal.dict fields)).1 =
                    RVal.dict (eraseKey "models" (eraseKey "name" fields)) := by
                simp only [register_store_handler, hn, hip, hm, hiter, hmm]
              rw [hgood] at hok
              have hreg : reg =
                  ⟨hty, eraseKey "models" (eraseKey "name" fields), tys⟩ := by
                simp only [Except.ok.injEq] at hok
                exact hok.symm
              rw [hreg, hfst]
              exact ⟨rfl, rfl⟩
  refine ⟨hcfg.1, hcfg.2, ?_, ?_, ?_⟩
  · rw [hcfg.1, lookupField_eraseKey_ne "models" "name" (by decide),
      lookupField_eraseKey_self "name" fields hnd]
  · rw [hcfg.1, lookupField_eraseKey_self "models" _ hnd1]
  · intro k hk1 hk2
    rw [hcfg.1, lookupField_eraseKey_ne "models" k hk2,
      lookupField_eraseKey_ne "name" k hk1]

/-- C10 (witness): the theorem applied at a concrete configuration with
one extra key `server_url`: after registration the stored (and mutated)
config has lost `name` and `models` but kept `server_url`. -/
theorem C10_config_mutation_witness :
    lookupField
      (HandlerReg.config ⟨"X", [("server_url", RVal.str "http://127.0.0.1:2379")],
        ["NodeModel"]⟩) "name" = Option.none ∧
    lookupField
      (HandlerReg.config ⟨"X", [("server_url", RVal.str "http://127.0.0.1:2379")],
        ["NodeModel"]⟩) "server_url" =
      lookupField [("name", RVal.str "X"),
        ("models", RVal.list [RVal.str "Node*"]),
        ("server_url", RVal.str "http://127.0.0.1:2379")] "server_url" := by
  have hc := C10_config_mutation
    (fun v => match v with
      | RVal.str s2 => Except.ok s2
      | _ => Except.error (ConfigErr.pluginError "not a string"))
    [("NodeModel", "NodeModel"), ("NetworkModel", "NetworkModel"),
     ("ClusterModel", "ClusterModel")]
    [("name", RVal.str "X"), ("models", RVal.list [RVal.str "Node*"]),
     ("server_url", RVal.str "http://127.0.0.1:2379")]
    ⟨"X", [("server_url", RVal.str "http://127.0.0.1:2379")], ["NodeModel"]⟩
    (by decide) rfl
  exact ⟨hc.2.2.1, hc.2.2.2.2 "server_url" (by decide) (by decide)⟩
